import Mathlib

/-!
Shallow embedding of the resumeLab core pipeline:
`src/services/geminiService.ts` (`safeJsonParse`, `extractJsonBlock`,
`normalizeResumeData`, `applyResumePatch`) and the store operations of
`src/store/useAppStore.ts` (`addOrUpdateExperience`, `addSkills`,
`removeSkills`, `clearAllSkills`, `setSummary`, `setContactInfo`,
`resetResume`, `replaceEntireResume`, ...).

Conventions of the embedding:
* JavaScript strings are Lean `String`s; the relevant JS string methods
  (`trim`, `toLowerCase`, `indexOf`, `slice`, `split`) are modelled by
  executable functions below.  `toLowerCase` is modelled on ASCII letters
  (every string the pipeline compares case-insensitively is ASCII).
* `JSON.parse` is modelled by an executable recursive-descent parser over
  the JSON grammar; parse failure is `none`.
* A JS value that is `undefined` or absent is modelled with `Option`;
  an `Experience.id`/`duration` of `""` models an absent field (every use
  in the source is a truthiness test, for which `""` and `undefined`
  behave identically).
* The résumé document is typed as in the spec's data model; raw JSON
  payloads that the source threads through untyped (`completeResume`)
  are kept as `Json` values and read field-by-field exactly where the
  source reads them.
-/

namespace ResumeLab

/-! ### JavaScript string primitives -/

/-- The character class of JavaScript's `\s` (whitespace), as used by
`String.prototype.trim` and regex `\s`.  Covers the full ECMA list. -/
def jsWhitespace (c : Char) : Bool :=
  c.toNat = 0x20 || c.toNat = 0x09 || c.toNat = 0x0a || c.toNat = 0x0b ||
  c.toNat = 0x0c || c.toNat = 0x0d || c.toNat = 0xa0 || c.toNat = 0x1680 ||
  (0x2000 ≤ c.toNat && c.toNat ≤ 0x200a) || c.toNat = 0x2028 ||
  c.toNat = 0x2029 || c.toNat = 0x202f || c.toNat = 0x205f ||
  c.toNat = 0x3000 || c.toNat = 0xfeff

/-- JS `String.prototype.trim`. -/
def jsTrim (s : String) : String :=
  String.mk (((s.toList.dropWhile jsWhitespace).reverse.dropWhile jsWhitespace).reverse)

/-- JS `String.prototype.toLowerCase` (ASCII fragment). -/
def jsLower (s : String) : String :=
  String.mk (s.toList.map Char.toLower)

/-- JS `a || b` on strings: the empty string is falsy. -/
def jsOrStr (a b : String) : String :=
  if a = "" then b else a

/-- `Array.from(new Set(l))`: deduplicate keeping the first occurrence
(later occurrences of an already-seen element are dropped). -/
def dedupFirst : List String → List String
  | [] => []
  | x :: xs => x :: (dedupFirst xs).filter (fun y => y ≠ x)

/-! ### The generic JSON value model and `JSON.parse` -/

/-- A parsed JSON value.  Number literals keep their lexeme; no claim
inspects numeric values beyond JS truthiness. -/
inductive Json where
  | null
  | bool (b : Bool)
  | num (lit : String)
  | str (s : String)
  | arr (elems : List Json)
  | obj (fields : List (String × Json))

/-- JSON whitespace (`JSON.parse` accepts exactly these four). -/
def jsonWs (c : Char) : Bool :=
  c = ' ' || c = '\t' || c = '\n' || c = '\r'

def skipJsonWs (cs : List Char) : List Char :=
  cs.dropWhile jsonWs

def hexVal (c : Char) : Option Nat :=
  if '0' ≤ c ∧ c ≤ '9' then some (c.toNat - '0'.toNat)
  else if 'a' ≤ c ∧ c ≤ 'f' then some (c.toNat - 'a'.toNat + 10)
  else if 'A' ≤ c ∧ c ≤ 'F' then some (c.toNat - 'A'.toNat + 10)
  else none

/-- Parse the body of a JSON string after the opening quote; returns the
decoded characters and the remainder after the closing quote. -/
def parseStringRest : List Char → Option (List Char × List Char)
  | [] => none
  | '"' :: rest => some ([], rest)
  | '\\' :: 'u' :: a :: b :: c :: d :: rest =>
    match hexVal a, hexVal b, hexVal c, hexVal d with
    | some x, some y, some z, some w =>
      (parseStringRest rest).map
        (fun p => (Char.ofNat (((x * 16 + y) * 16 + z) * 16 + w) :: p.1, p.2))
    | _, _, _, _ => none
  | '\\' :: e :: rest =>
    let dec : Option Char :=
      if e = '"' then some '"'
      else if e = '\\' then some '\\'
      else if e = '/' then some '/'
      else if e = 'b' then some (Char.ofNat 8)
      else if e = 'f' then some (Char.ofNat 12)
      else if e = 'n' then some '\n'
      else if e = 'r' then some '\r'
      else if e = 't' then some '\t'
      else none
    match dec with
    | some ch => (parseStringRest rest).map (fun p => (ch :: p.1, p.2))
    | none => none
  | c :: rest =>
    if c.toNat < 0x20 then none
    else (parseStringRest rest).map (fun p => (c :: p.1, p.2))

def isDigitChar (c : Char) : Bool := '0' ≤ c && c ≤ '9'

/-- Parse a JSON number literal, returning its lexeme and the remainder. -/
def parseNumber (cs : List Char) : Option (String × List Char) :=
  let (sign, cs1) := match cs with
    | '-' :: rest => (['-'], rest)
    | _ => (([] : List Char), cs)
  match cs1 with
  | [] => none
  | c :: _ =>
    if ¬ isDigitChar c then none
    else
      let intPart := cs1.takeWhile isDigitChar
      let cs2 := cs1.dropWhile isDigitChar
      -- JSON forbids leading zeros: "0" is fine, "01" is not.
      if intPart.length > 1 ∧ intPart.headD '0' = '0' then none
      else
        let (fracPart, cs3) := match cs2 with
          | '.' :: rest =>
            let ds := rest.takeWhile isDigitChar
            if ds = [] then ((none : Option (List Char)), cs2)
            else (some ('.' :: ds), rest.dropWhile isDigitChar)
          | _ => (none, cs2)
        match cs2, fracPart with
        | '.' :: _, none => none
        | _, _ =>
          let (expPart, cs4) : Option (List Char) × List Char := match cs3 with
            | e :: rest =>
              if e = 'e' ∨ e = 'E' then
                let (sgn, rest1) := match rest with
                  | '+' :: r => (['+'], r)
                  | '-' :: r => (['-'], r)
                  | _ => (([] : List Char), rest)
                let ds := rest1.takeWhile isDigitChar
                if ds = [] then (none, cs3)
                else (some (e :: (sgn ++ ds)), rest1.dropWhile isDigitChar)
              else (none, cs3)
            | [] => (none, cs3)
          match cs3, expPart with
          | e :: _, none =>
            if e = 'e' ∨ e = 'E' then none
            else some (String.mk (sign ++ intPart ++ fracPart.getD [] ++ []), cs3)
          | _, _ =>
            some (String.mk (sign ++ intPart ++ fracPart.getD [] ++ expPart.getD []), cs4)

mutual

/-- Recursive-descent `JSON.parse` on a character list; `fuel` bounds the
recursion depth and is always supplied large enough. -/
def parseValue : Nat → List Char → Option (Json × List Char)
  | 0, _ => none
  | fuel + 1, cs =>
    match skipJsonWs cs with
    | 'n' :: 'u' :: 'l' :: 'l' :: rest => some (Json.null, rest)
    | 't' :: 'r' :: 'u' :: 'e' :: rest => some (Json.bool true, rest)
    | 'f' :: 'a' :: 'l' :: 's' :: 'e' :: rest => some (Json.bool false, rest)
    | '"' :: rest =>
      (parseStringRest rest).map (fun p => (Json.str (String.mk p.1), p.2))
    | '[' :: rest =>
      (match skipJsonWs rest with
       | ']' :: rest2 => some (Json.arr [], rest2)
       | _ => (parseArrayItems fuel rest).map (fun p => (Json.arr p.1, p.2)))
    | '{' :: rest =>
      (match skipJsonWs rest with
       | '}' :: rest2 => some (Json.obj [], rest2)
       | _ => (parseObjectItems fuel rest).map (fun p => (Json.obj p.1, p.2)))
    | cs' => (parseNumber cs').map (fun p => (Json.num p.1, p.2))

def parseArrayItems : Nat → List Char → Option (List Json × List Char)
  | 0, _ => none
  | fuel + 1, cs =>
    match parseValue fuel cs with
    | none => none
    | some (v, rest) =>
      match skipJsonWs rest with
      | ',' :: rest2 =>
        (parseArrayItems fuel rest2).map (fun p => (v :: p.1, p.2))
      | ']' :: rest2 => some ([v], rest2)
      | _ => none

def parseObjectItems : Nat → List Char → Option (List (String × Json) × List Char)
  | 0, _ => none
  | fuel + 1, cs =>
    match skipJsonWs cs with
    | '"' :: rest =>
      match parseStringRest rest with
      | none => none
      | some (key, rest1) =>
        match skipJsonWs rest1 with
        | ':' :: rest2 =>
          match parseValue fuel rest2 with
          | none => none
          | some (v, rest3) =>
            match skipJsonWs rest3 with
            | ',' :: rest4 =>
              (parseObjectItems fuel rest4).map
                (fun p => ((String.mk key, v) :: p.1, p.2))
            | '}' :: rest4 => some ([(String.mk key, v)], rest4)
            | _ => none
        | _ => none
    | _ => none

end

/-- Model of strict `JSON.parse`: the whole input must be one value. -/
def jsonParse (s : String) : Option Json :=
  match parseValue (2 * s.toList.length + 8) s.toList with
  | some (v, rest) => if skipJsonWs rest = [] then some v else none
  | none => none

/-! ### JS-semantics helpers over `Json` -/

/-- Property read `j[k]`; on objects, later duplicate keys win as in
`JSON.parse`.  Absent property (JS `undefined`) is `none`. -/
def jsGetField (j : Json) (k : String) : Option Json :=
  match j with
  | Json.obj fs => (fs.reverse.find? (fun p => p.1 = k)).map (fun p => p.2)
  | _ => none

def jsGetStr : Json → Option String
  | Json.str s => some s
  | _ => none

/-- Whether a numeric literal denotes zero: no nonzero digit in the
mantissa (the part before any exponent marker). -/
def numIsZero (lit : String) : Bool :=
  (lit.toList.takeWhile (fun c => c ≠ 'e' ∧ c ≠ 'E')).all
    (fun c => ¬ ('1' ≤ c ∧ c ≤ '9'))

/-- JS truthiness of a JSON value. -/
def jsTruthy : Json → Bool
  | Json.null => false
  | Json.bool b => b
  | Json.num lit => ¬ numIsZero lit
  | Json.str s => s ≠ ""
  | Json.arr _ => true
  | Json.obj _ => true

def jsTruthyOpt : Option Json → Bool
  | some v => jsTruthy v
  | none => false

/-- `typeof x === 'object'` (true for objects, arrays and `null`). -/
def jsIsObjectLike : Json → Bool
  | Json.obj _ => true
  | Json.arr _ => true
  | Json.null => true
  | _ => false

def jsIsArr : Json → Bool
  | Json.arr _ => true
  | _ => false

/-- `a[0]` on a JS array; out-of-range gives `undefined`, which every
consumer treats like `null` (falsy non-object). -/
def headOrNull : Json → Json
  | Json.arr (x :: _) => x
  | _ => Json.null

/-! ### `safeJsonParse` (geminiService.ts, lines 56-66) -/

def backtick : Char := Char.ofNat 96

/-- `/^[\s`]+|[\s`]+$/g` removal: strip whitespace and stray fence
backticks from both ends. -/
def stripEdges (s : String) : String :=
  let edge := fun c => jsWhitespace c || c = backtick
  String.mk (((s.toList.dropWhile edge).reverse.dropWhile edge).reverse)

/-- `/[“”]/g → '"'`. -/
def replaceSmartQuotes (s : String) : String :=
  String.mk (s.toList.map (fun c =>
    if c.toNat = 0x201c ∨ c.toNat = 0x201d then '"' else c))

/-- `/,\s*([}\]])/g → '$1'`: drop a comma (and the whitespace run) that
directly precedes a closing brace or bracket; scanning resumes after the
bracket, as a global regex replace does. -/
def removeTrailingCommasAux : Nat → List Char → List Char
  | 0, l => l
  | _, [] => []
  | fuel + 1, c :: rest =>
    if c = ',' then
      let rest' := rest.dropWhile jsWhitespace
      match rest' with
      | b :: tail =>
        if b = '}' ∨ b = ']' then b :: removeTrailingCommasAux fuel tail
        else c :: removeTrailingCommasAux fuel rest
      | [] => c :: removeTrailingCommasAux fuel rest
    else c :: removeTrailingCommasAux fuel rest

def removeTrailingCommas (s : String) : String :=
  String.mk (removeTrailingCommasAux (s.toList.length + 1) s.toList)

/-- `safeJsonParse`: strict parse, then one retry after light recovery
normalization. -/
def safeJsonParse (raw : String) : Option Json :=
  match jsonParse raw with
  | some v => some v
  | none => jsonParse (removeTrailingCommas (replaceSmartQuotes (stripEdges raw)))

/-! ### `extractJsonBlock` (geminiService.ts, lines 68-114) -/

/-- Find the first index at or after the start of `hay` where `lp`
(already lowercased) occurs case-insensitively. -/
def findCIAux (lp : List Char) : List Char → Nat → Option Nat
  | [], i => if lp = [] then some i else none
  | l@(_ :: tl), i =>
    if (l.take lp.length).map Char.toLower = lp then some i
    else findCIAux lp tl (i + 1)

/-- First case-insensitive occurrence of `pat` in `hay` at index ≥ `start`
(models `text.search(/pat/i)` and the scan position of a regex match). -/
def findCI (hay pat : List Char) (start : Nat) : Option Nat :=
  (findCIAux (pat.map Char.toLower) (hay.drop start) 0).map (· + start)

def idxOfChar (cs : List Char) (c : Char) : Option Nat :=
  findCI cs [c] 0

/-- Index of the last occurrence of `c` (for the greedy `\{[\s\S]*\}`). -/
def lastIdxOfChar (cs : List Char) (c : Char) : Option Nat :=
  (findCI cs.reverse [c] 0).map (fun i => cs.length - 1 - i)

def sliceL (cs : List Char) (a b : Nat) : List Char :=
  (cs.drop a).take (b - a)

/-- Brace-depth scan of the unterminated-tag recovery: index of the `}`
at which the depth first returns to zero. -/
def findBalancedEnd : List Char → Nat → Nat → Option Nat
  | [], _, _ => none
  | c :: rest, i, depth =>
    if c = '{' then findBalancedEnd rest (i + 1) (depth + 1)
    else if c = '}' then
      (if depth = 1 then some i else findBalancedEnd rest (i + 1) (depth - 1))
    else findBalancedEnd rest (i + 1) depth

/-- The candidate of strategy 2: the first balanced `{…}` span after the
opening tag (`after` is the text following `[RESUME_DATA]`). -/
def recoverAfterOpen (after : List Char) : Option (List Char) :=
  match idxOfChar after '{' with
  | some b =>
    (findBalancedEnd (after.drop b) 0 0).map (fun e => (after.drop b).take (e + 1))
  | none => none

/-- The interior of the first generic fenced code block, per the regex
`/```(?:json)?\s*([\s\S]*?)```/i`: at the first fence, optionally consume
a case-insensitive `json`, greedily consume whitespace, then take the
lazily-matched interior up to the next fence. -/
def fenceMatch (cs : List Char) : Option (List Char) :=
  let tick3 : List Char := [backtick, backtick, backtick]
  match findCI cs tick3 0 with
  | some p =>
    let q0 := p + 3
    let q1 :=
      if (sliceL cs q0 (q0 + 4)).map Char.toLower = ['j', 's', 'o', 'n']
      then q0 + 4 else q0
    let q2 := q1 + ((cs.drop q1).takeWhile jsWhitespace).length
    match findCI cs tick3 q2 with
    | some r => some (sliceL cs q2 r)
    | none => none
  | none => none

/-- Result of `extractJsonBlock`: `data` plus an optional warning/error
message, exactly as the source returns them. -/
structure ExtractResult where
  data : Option Json
  error : Option String

def openTagL : List Char := "[RESUME_DATA]".toList
def closeTagL : List Char := "[/RESUME_DATA]".toList

def extractJsonBlock (text : String) : ExtractResult :=
  let cs := text.toList
  match findCI cs openTagL 0 with
  | some i =>
    -- 1. Full tagged block
    match findCI cs closeTagL (i + 13) with
    | some j =>
      let parsed := safeJsonParse (jsTrim (String.mk (sliceL cs (i + 13) j)))
      { data := parsed,
        error := if jsTruthyOpt parsed then none else some "Tagged JSON not parseable" }
    | none =>
      -- 2. Opening tag only: balanced-brace recovery
      match recoverAfterOpen (cs.drop (i + 13)) with
      | some cand =>
        let parsed := safeJsonParse (String.mk cand)
        if jsTruthyOpt parsed then
          { data := parsed, error := some "Missing closing tag, recovered JSON" }
        else
          { data := none, error := some "Opening tag without JSON" }
      | none => { data := none, error := some "Opening tag without JSON" }
  | none =>
    -- 3. Fenced block
    match fenceMatch cs with
    | some content =>
      let parsed := safeJsonParse (jsTrim (String.mk content))
      { data := parsed,
        error := if jsTruthyOpt parsed then none else some "Fenced JSON not parseable" }
    | none =>
      -- 4. First top-level object fallback
      match idxOfChar cs '{', lastIdxOfChar cs '}' with
      | some a, some b =>
        if a < b then
          let parsed := safeJsonParse (String.mk (sliceL cs a (b + 1)))
          if jsTruthyOpt parsed then
            { data := parsed, error := some "Used untagged JSON fallback" }
          else
            { data := none, error := some "No JSON found" }
        else { data := none, error := some "No JSON found" }
      | _, _ => { data := none, error := some "No JSON found" }

/-! ### The résumé document and the store operations (useAppStore.ts) -/

/-- `.trim()` on a JS value: defined exactly on strings, a TypeError
(modelled as `none`) on anything else. -/
def jsTrimJ (j : Json) : Option String :=
  (jsGetStr j).map jsTrim

/-- `.toLowerCase().trim()` on a JS value: a TypeError (`none`) unless
the value is a string. -/
def jsLowerTrimJ (j : Json) : Option String :=
  (jsGetStr j).map (fun s => jsTrim (jsLower s))

/-- JS strict equality `s === j` between a string and an arbitrary
value. -/
def jsStrictEqStr (s : String) (j : Json) : Bool :=
  match j with
  | Json.str t => s = t
  | _ => false

/-- `array.includes('lit')` over a raw JSON array (SameValueZero; only a
string element can equal a string literal). -/
def jsIncludes (l : List Json) (s : String) : Bool :=
  l.any (fun j => jsStrictEqStr s j)

/-- A work-experience entry as the store holds it.  `id = ""` models an
absent id (every use is a truthiness test).  `company`, `title` and
`duration` are `Option String`: `none` models a field that is absent
(JS `undefined`) — which happens for entries installed verbatim by a
raw `replace` payload — and calling `.trim()` on it throws. -/
@[ext] structure Experience where
  id : String
  company : Option String
  title : Option String
  duration : Option String
  description : List String
deriving DecidableEq

/-- A contact patch value.  The OUTER option is key presence (the JS
spread `{...resume, ...c}` copies only present keys); the INNER option
is the key's value, `none` modelling `undefined` — a present key with
an `undefined` value overwrites (clears) the document field. -/
@[ext] structure Contact where
  fullName : Option (Option String)
  email : Option (Option String)
  phone : Option (Option String)
  location : Option (Option String)
  title : Option (Option String)
deriving DecidableEq

/-- The store's `resume` state. -/
@[ext] structure Resume where
  experiences : List Experience
  skills : List String
  summary : String
  fullName : Option String
  email : Option String
  phone : Option String
  location : Option String
  title : Option String
deriving DecidableEq

/-- The store's initial `resume` value (all contact fields `''`). -/
def emptyResume : Resume :=
  { experiences := [], skills := [], summary := "",
    fullName := some "", email := some "", phone := some "",
    location := some "", title := some "" }

/-- The predicate of `addOrUpdateExperience`'s `findIndex`:
`(exp.id && e.id && e.id === exp.id) || (e.company && exp.company &&
 e.company.trim().toLowerCase() === exp.company.trim().toLowerCase())`.
The `&&` guards make the `.trim()` calls unreachable unless both
companies are truthy strings, so this predicate cannot throw (an absent
company is falsy and short-circuits). -/
def experienceMatches (exp e : Experience) : Bool :=
  (exp.id ≠ "" && e.id ≠ "" && e.id = exp.id) ||
  (e.company.getD "" ≠ "" && exp.company.getD "" ≠ "" &&
    jsLower (jsTrim (e.company.getD "")) = jsLower (jsTrim (exp.company.getD "")))

/-- The merge `{...prev, ...exp, id: prev.id || exp.id, description:
Array.from(new Set([...prev.description, ...exp.description]))}`:
`company`, `title`, `duration` are taken from `exp` unconditionally. -/
def mergeExperience (prev exp : Experience) : Experience :=
  { id := if prev.id ≠ "" then prev.id else exp.id,
    company := exp.company,
    title := exp.title,
    duration := exp.duration,
    description := dedupFirst (prev.description ++ exp.description) }

/-- Update the first entry matching `findIndex`'s predicate, else append
(the `idx === -1` branch). -/
def upsertExperience (exp : Experience) : List Experience → List Experience
  | [] => [exp]
  | e :: es =>
    if experienceMatches exp e then mergeExperience e exp :: es
    else e :: upsertExperience exp es

/-- `addOrUpdateExperience`; `fresh` stands for the `makeId()` result. -/
def addOrUpdateExperience (incoming : Experience) (fresh : String) (r : Resume) : Resume :=
  let exp : Experience :=
    { incoming with
      id := if incoming.id = "" then fresh else incoming.id,
      description := dedupFirst incoming.description }
  { r with experiences := upsertExperience exp r.experiences }

/-- The filter of `removeExperience`, which keeps entries NOT matching
`(e.id && e.id === key) || e.company.trim().toLowerCase() ===
 key.trim().toLowerCase()`.  After a falsy/failed id disjunct the
`.trim()` calls are UNGUARDED: an entry without a string company, or a
non-string removal key, makes the filter throw (`none`). -/
def removeExperienceFilter (key : Json) : List Experience → Option (List Experience)
  | [] => some []
  | e :: es =>
    if e.id ≠ "" && jsStrictEqStr e.id key then removeExperienceFilter key es
    else
      match e.company, jsGetStr key with
      | some c, some k =>
        if jsLower (jsTrim c) = jsLower (jsTrim k) then removeExperienceFilter key es
        else (removeExperienceFilter key es).map (fun l => e :: l)
      | _, _ => none

def removeExperience (key : Json) (r : Resume) : Option Resume :=
  (removeExperienceFilter key r.experiences).map
    (fun es => { r with experiences := es })

def clearAllExperiences (r : Resume) : Resume :=
  { r with experiences := [] }

/-- `array.map(f)` for a callback `f` that can throw: the values in
order, or the first exception (`none`). -/
def jsMapOrThrow (f : Json → Option String) : List Json → Option (List String)
  | [] => some []
  | j :: js =>
    match f j with
    | some s => (jsMapOrThrow f js).map (fun ts => s :: ts)
    | none => none

/-- `addSkills`: `newSkills.map(s => s.trim())` throws (`none`) on any
non-string element; on success, exact-string dedup of the existing
skills followed by the trimmed, non-empty incoming skills. -/
def addSkills (newSkills : List Json) (r : Resume) : Option Resume :=
  (jsMapOrThrow jsTrimJ newSkills).map
    (fun ts => { r with skills := dedupFirst (r.skills ++ ts.filter (fun s => s ≠ "")) })

/-- `removeSkills`: `skillsToRemove.map(s => s.toLowerCase().trim())`
throws (`none`) on any non-string element. -/
def removeSkills (skillsToRemove : List Json) (r : Resume) : Option Resume :=
  (jsMapOrThrow jsLowerTrimJ skillsToRemove).map
    (fun toRemove =>
      { r with skills := r.skills.filter (fun s => ¬ toRemove.contains (jsTrim (jsLower s))) })

def clearAllSkills (r : Resume) : Resume :=
  { r with skills := [] }

def setSummary (summary : String) (r : Resume) : Resume :=
  { r with summary := summary }

def clearSummary (r : Resume) : Resume :=
  { r with summary := "" }

def resetResume (_ : Resume) : Resume := emptyResume

def replaceEntireResume (newResume : Resume) (_ : Resume) : Resume := newResume

/-- `setContactInfo`: `{...state.resume, ...c}` — a PRESENT key
overrides the document field with its value even when that value is
`undefined` (clearing the field); only an absent key leaves the
document field alone. -/
def setContactInfo (c : Contact) (r : Resume) : Resume :=
  { r with
    fullName := match c.fullName with | some v => v | none => r.fullName,
    email := match c.email with | some v => v | none => r.email,
    phone := match c.phone with | some v => v | none => r.phone,
    location := match c.location with | some v => v | none => r.location,
    title := match c.title with | some v => v | none => r.title }

/-! ### The canonical Patch (geminiService.ts `NormalizedResumePatch`) -/

inductive Operation where
  | patch
  | replace
  | reset
deriving DecidableEq

structure PatchExperience where
  id : Option String
  company : Option String
  title : Option String
  duration : Option String
  description : Option (List String)
deriving DecidableEq

/-- The Normalizer's output.  `completeResume` is kept as the raw JSON
value, and the pass-through arrays keep their raw JSON elements,
exactly as the source threads them through untyped. -/
structure NormalizedResumePatch where
  operation : Operation
  experience : Option PatchExperience
  skills : Option (List Json)
  removeSkills : Option (List Json)
  removeExperiences : Option (List Json)
  clearSections : Option (List Json)
  summary : Option String
  completeResume : Option Json
  contact : Option Contact

/-! ### `normalizeResumeData` (geminiService.ts, lines 116-193) -/

def containerKeys : List String :=
  ["experience", "experiences", "work", "education", "job", "role", "position"]

def nestedKeys : List String :=
  ["education", "work", "job", "role", "position", "experiences", "experience"]

/-- The first of `keys` whose property on `j` is truthy, and its value
(the container-probing loop / the nested-key `find`). -/
def probeFirstTruthy (j : Json) : List String → Option Json
  | [] => none
  | k :: ks =>
    match jsGetField j k with
    | some v => if jsTruthy v then some v else probeFirstTruthy j ks
    | none => probeFirstTruthy j ks

/-- String value of a property, with `''` for an absent or non-string
value (a non-string truthy value would make the source's `.trim()` throw;
no such payload reaches the typed document). -/
def strFieldD (j : Json) (k : String) : String :=
  ((jsGetField j k).bind jsGetStr).getD ""

def isDescSep (c : Char) : Bool :=
  c = '\r' || c = '\n' || c = '•' || c = ';' || c = ',' || c = '-'

/-- Split on the separator class of `/[\r\n•;,-]{1,}/`.  Splitting on
each separator instead of on runs only introduces empty pieces, which
the subsequent `filter` drops, so the final value is identical. -/
def splitSepAux : List Char → List Char → List (List Char)
  | [], acc => [acc.reverse]
  | c :: rest, acc =>
    if isDescSep c then acc.reverse :: splitSepAux rest []
    else splitSepAux rest (c :: acc)

/-- `description.split(/[\r\n•;,-]{1,}/).map(s => s.trim()).filter(Boolean)`. -/
def splitDescription (s : String) : List String :=
  ((splitSepAux s.toList []).map (fun cs => jsTrim (String.mk cs))).filter (fun x => x ≠ "")

/-- Build `patch.experience` from the resolved experience object. -/
def buildPatchExperience (e : Json) : PatchExperience :=
  let desc : List String :=
    match jsGetField e "description" with
    | some (Json.arr l) => l.filterMap jsGetStr
    | some (Json.str s) => splitDescription s
    | _ => []
  { id := (jsGetField e "id").bind jsGetStr,
    company := some (jsTrim (jsOrStr (jsOrStr (strFieldD e "company") (strFieldD e "companyName")) (strFieldD e "employer"))),
    title := some (jsTrim (jsOrStr (strFieldD e "title") (strFieldD e "position"))),
    duration :=
      (let d := jsOrStr (strFieldD e "duration") (strFieldD e "period")
       if d = "" then none else some d),
    description := some desc }

/-- The experience-resolution of the Normalizer (lines 123-168). -/
def resolveExperience (raw : Json) : Option PatchExperience :=
  let e0 : Json := (jsGetField raw "experience").getD Json.null
  let e1 : Json :=
    if jsTruthy e0 then e0
    else if jsTruthy raw && jsIsObjectLike raw then
      (probeFirstTruthy raw containerKeys).getD e0
    else e0
  let e2 : Json := if jsIsArr e1 then headOrNull e1 else e1
  if jsTruthy e2 && jsIsObjectLike e2 then
    let e3 : Json :=
      match probeFirstTruthy e2 nestedKeys with
      | some v => if jsIsArr v then headOrNull v else v
      | none => e2
    if jsTruthy e3 && jsIsObjectLike e3 then some (buildPatchExperience e3)
    else none
  else none

/-- Contact pulled verbatim (no trimming) from `completeResume.contact`:
only the keys actually present on the raw object are carried over (a
key present with a non-string value is carried as an `undefined`-like
inner `none`). -/
def jsonToContact (cj : Json) : Contact :=
  { fullName := (jsGetField cj "fullName").map jsGetStr,
    email := (jsGetField cj "email").map jsGetStr,
    phone := (jsGetField cj "phone").map jsGetStr,
    location := (jsGetField cj "location").map jsGetStr,
    title := (jsGetField cj "title").map jsGetStr }

/-- The contact-resolution of the Normalizer (lines 178-190): a
top-level `contact` object yields a patch contact carrying ALL five
keys (each value trimmed when a string, `undefined` otherwise); the
fallback pulls `completeResume.contact` verbatim with only its own
keys. -/
def normalizeContact (raw : Json) : Option Contact :=
  let top : Option Contact :=
    match jsGetField raw "contact" with
    | some c =>
      if jsTruthy c && jsIsObjectLike c then
        some { fullName := some (((jsGetField c "fullName").bind jsGetStr).map jsTrim),
               email := some (((jsGetField c "email").bind jsGetStr).map jsTrim),
               phone := some (((jsGetField c "phone").bind jsGetStr).map jsTrim),
               location := some (((jsGetField c "location").bind jsGetStr).map jsTrim),
               title := some (((jsGetField c "title").bind jsGetStr).map jsTrim) }
      else none
    | none => none
  match top with
  | some c => some c
  | none =>
    match (jsGetField raw "completeResume").bind (fun cr => jsGetField cr "contact") with
    | some cj => if jsTruthy cj then some (jsonToContact cj) else none
    | none => none

/-- A pass-through array (`Array.isArray` guard), copied VERBATIM with
its raw JSON elements — non-string elements are not filtered here and
will make a later `.trim()`/`.toLowerCase()` in the store throw. -/
def passthroughArr (raw : Json) (k : String) : Option (List Json) :=
  match jsGetField raw k with
  | some (Json.arr l) => some l
  | _ => none

/-- JS strict equality `v === 'lit'` against a string literal. -/
def isStrEq (j : Option Json) (s : String) : Bool :=
  match j with
  | some (Json.str t) => t = s
  | _ => false

def normalizeResumeData (raw : Json) : NormalizedResumePatch :=
  let rawOp := jsGetField raw "operation"
  { operation :=
      if isStrEq rawOp "replace" then Operation.replace
      else if isStrEq rawOp "reset" then Operation.reset
      else Operation.patch,
    experience := resolveExperience raw,
    skills := passthroughArr raw "skills",
    removeSkills := passthroughArr raw "removeSkills",
    removeExperiences := passthroughArr raw "removeExperiences",
    clearSections := passthroughArr raw "clearSections",
    summary := (jsGetField raw "summary").bind jsGetStr,
    completeResume :=
      (match isStrEq rawOp "replace", jsGetField raw "completeResume" with
       | true, some cr => if jsTruthy cr then some cr else none
       | _, _ => none),
    contact := normalizeContact raw }

/-! ### `applyResumePatch` (geminiService.ts, lines 196-263) -/

/-- `completeResume.<k> || []` read as a JSON array. -/
def jsFieldArr (cr : Json) (k : String) : List Json :=
  match jsGetField cr k with
  | some (Json.arr l) => l
  | _ => []

/-- An experience entry of a `completeResume.experiences` payload,
stored verbatim: an absent (or non-string) `company`, `title` or
`duration` stays absent (`none`) — the source performs NO normalization
here, which is why a later unguarded `e.company.trim()` can throw. -/
def jsonToExperience (j : Json) : Experience :=
  { id := strFieldD j "id",
    company := (jsGetField j "company").bind jsGetStr,
    title := (jsGetField j "title").bind jsGetStr,
    duration := (jsGetField j "duration").bind jsGetStr,
    description := (jsFieldArr j "description").filterMap jsGetStr }

/-- The `replace`-with-payload branch: the document is rebuilt entirely
from `completeResume` (lines 219-231). -/
def replaceFromComplete (cr : Json) : Resume :=
  let contactJ := jsGetField cr "contact"
  let cfield := fun (k : String) => (contactJ.bind (fun c => (jsGetField c k).bind jsGetStr)).getD ""
  { experiences := (jsFieldArr cr "experiences").map jsonToExperience,
    skills := (jsFieldArr cr "skills").filterMap jsGetStr,
    summary := ((jsGetField cr "summary").bind jsGetStr).getD "",
    fullName := some (jsOrStr (cfield "fullName") (strFieldD cr "fullName")),
    email := some (cfield "email"),
    phone := some (cfield "phone"),
    location := some (cfield "location"),
    title := some (cfield "title") }

def applyClears (sections : List Json) (r : Resume) : Resume :=
  let r1 := if jsIncludes sections "experiences" then clearAllExperiences r else r
  let r2 := if jsIncludes sections "skills" then clearAllSkills r1 else r1
  if jsIncludes sections "summary" then clearSummary r2 else r2

/-- The experience add/update step (lines 239-247): `company` is passed
verbatim (the guard ensures it is a non-empty string), `title` and
`duration` are defaulted to `''` by `|| ''`. -/
def applyExperienceStep (pe : Option PatchExperience) (fresh : String) (r : Resume) : Resume :=
  match pe with
  | none => r
  | some e =>
    if e.company.getD "" ≠ "" then
      addOrUpdateExperience
        { id := (e.id).getD "",
          company := e.company,
          title := some (e.title.getD ""),
          duration := some (e.duration.getD ""),
          description := e.description.getD [] } fresh r
    else r

/-- Run `removeExperience` for each key in order, stopping at the first
exception. -/
def removeExperiencesRun : List Json → Resume → Option Resume
  | [], r => some r
  | k :: ks, r =>
    match removeExperience k r with
    | some r2 => removeExperiencesRun ks r2
    | none => none

/-- `patch.removeExperiences?.forEach(key => removeExperience(key))`;
an exception from any removal aborts the whole call. -/
def applyRemoveExperiencesStep (keys : Option (List Json)) (r : Resume) : Option Resume :=
  match keys with
  | some l => removeExperiencesRun l r
  | none => some r

def applySkillsStep (sk : Option (List Json)) (r : Resume) : Option Resume :=
  match sk with
  | some l => if l.length ≠ 0 then addSkills l r else some r
  | none => some r

def applyRemoveSkillsStep (sk : Option (List Json)) (r : Resume) : Option Resume :=
  match sk with
  | some l => if l.length ≠ 0 then removeSkills l r else some r
  | none => some r

def applySummaryStep (s : Option String) (r : Resume) : Resume :=
  match s with
  | some str => if jsTrim str ≠ "" then setSummary (jsTrim str) r else r
  | none => r

def applyContactStep (c : Option Contact) (r : Resume) : Resume :=
  match c with
  | some ct => setContactInfo ct r
  | none => r

/-- `applyResumePatch`, as a document transition; `fresh` stands for the
`makeId()` value a call may generate.  The result is `none` when the
source would throw a TypeError out of the call (an unguarded `.trim()`
or `.toLowerCase()` on a non-string reached through a malformed patch
or a raw replace-installed entry). -/
def applyResumePatch (patch : NormalizedResumePatch) (fresh : String) (r : Resume) : Option Resume :=
  if patch.operation = Operation.reset then some (resetResume r)
  else if patch.operation = Operation.replace ∧ jsTruthyOpt patch.completeResume then
    match patch.completeResume with
    | some cr => some (replaceEntireResume (replaceFromComplete cr) r)
    | none => some r
  else
    let r1 := applyClears (patch.clearSections.getD []) r
    let r2 := applyExperienceStep patch.experience fresh r1
    (applyRemoveExperiencesStep patch.removeExperiences r2).bind (fun r3 =>
      (applySkillsStep patch.skills r3).bind (fun r4 =>
        (applyRemoveSkillsStep patch.removeSkills r4).map (fun r5 =>
          applyContactStep patch.contact (applySummaryStep patch.summary r5))))

/-! ### Properties of the exact-string set dedup -/

theorem mem_dedupFirst (a : String) : ∀ (l : List String), a ∈ dedupFirst l ↔ a ∈ l := by
  intro l
  induction l with
  | nil => simp [dedupFirst]
  | cons x xs ih =>
    by_cases hax : a = x
    · simp [dedupFirst, hax]
    · simp [dedupFirst, List.mem_filter, hax, ih]

theorem nodup_dedupFirst : ∀ (l : List String), (dedupFirst l).Nodup := by
  intro l
  induction l with
  | nil => simp [dedupFirst]
  | cons x xs ih =>
    rw [dedupFirst]
    refine List.nodup_cons.mpr ⟨?_, ih.filter _⟩
    intro hx
    simp [List.mem_filter] at hx

theorem dedupFirst_eq_self_of_nodup : ∀ (l : List String), l.Nodup → dedupFirst l = l := by
  intro l
  induction l with
  | nil => simp [dedupFirst]
  | cons x xs ih =>
    intro hnd
    rcases List.nodup_cons.mp hnd with ⟨hx, hxs⟩
    rw [dedupFirst, ih hxs]
    congr 1
    apply List.filter_eq_self.mpr
    intro y hy
    simp only [ne_eq, decide_eq_true_eq]
    exact fun h => hx (h ▸ hy)

theorem dedupFirst_idem (l : List String) : dedupFirst (dedupFirst l) = dedupFirst l :=
  dedupFirst_eq_self_of_nodup _ (nodup_dedupFirst l)

theorem dedupFirst_append_not_mem (a : String) :
    ∀ (l : List String), a ∉ l → dedupFirst (l ++ [a]) = dedupFirst l ++ [a] := by
  intro l
  induction l with
  | nil => simp [dedupFirst]
  | cons x xs ih =>
    intro ha
    rw [List.mem_cons] at ha
    push_neg at ha
    rw [List.cons_append, dedupFirst, dedupFirst, ih ha.2, List.filter_append]
    simp [ha.1]

theorem dedupFirst_append_mem (a : String) :
    ∀ (l : List String), a ∈ l → dedupFirst (l ++ [a]) = dedupFirst l := by
  intro l
  induction l with
  | nil => simp
  | cons x xs ih =>
    intro ha
    rw [List.cons_append, dedupFirst, dedupFirst]
    by_cases hax : a = x
    · subst hax
      by_cases hmem : a ∈ xs
      · rw [ih hmem]
      · rw [dedupFirst_append_not_mem a xs hmem, List.filter_append]
        simp
    · rcases List.mem_cons.mp ha with h1 | h1
      · exact absurd h1 hax
      · rw [ih h1]

theorem dedupFirst_append_of_subset :
    ∀ (l₂ l₁ : List String), (∀ x ∈ l₂, x ∈ l₁) → dedupFirst (l₁ ++ l₂) = dedupFirst l₁ := by
  intro l₂
  induction l₂ with
  | nil => intro l₁ _; simp
  | cons b m ih =>
    intro l₁ h
    have hb : b ∈ l₁ := h b (List.mem_cons_self _ _)
    have : l₁ ++ b :: m = (l₁ ++ [b]) ++ m := by simp
    rw [this, ih (l₁ ++ [b])
      (fun x hx => List.mem_append.mpr (Or.inl (h x (List.mem_cons_of_mem _ hx)))),
      dedupFirst_append_mem b l₁ hb]

theorem filterMap_getStr_map_str (ls : List String) :
    (ls.map Json.str).filterMap jsGetStr = ls := by
  induction ls with
  | nil => rfl
  | cons x xs ih => simp [List.filterMap, jsGetStr, ih]

theorem filterMap_getStr_comp (ls : List String) :
    List.filterMap (jsGetStr ∘ Json.str) ls = ls := by
  induction ls with
  | nil => rfl
  | cons x xs ih => simp [List.filterMap, jsGetStr, Function.comp, ih]

/-- `.map(s => s.trim())` on an all-string array never throws and trims
each element. -/
theorem jsMapOrThrow_trim_strs (ls : List String) :
    jsMapOrThrow jsTrimJ (ls.map Json.str) = some (ls.map jsTrim) := by
  induction ls with
  | nil => rfl
  | cons x xs ih => simp [jsMapOrThrow, jsTrimJ, jsGetStr, ih]

/-! ### Claim C1 -/

/-- A `patch` whose only content is `skills: ["a", "A"]`. -/
def c1PatchSkills : NormalizedResumePatch :=
  { operation := Operation.patch, experience := none,
    skills := some [Json.str "a", Json.str "A"],
    removeSkills := none, removeExperiences := none, clearSections := none,
    summary := none, completeResume := none, contact := none }

/-- A `replace` installing `completeResume.skills = ["x", "x"]`. -/
def c1PatchReplace : NormalizedResumePatch :=
  { operation := Operation.replace, experience := none, skills := none,
    removeSkills := none, removeExperiences := none, clearSections := none,
    summary := none,
    completeResume := some (Json.obj [("skills", Json.arr [Json.str "x", Json.str "x"])]),
    contact := none }

/-- C1 counterexample: one Applicator call from the empty document yields
`skills = ["a", "A"]`, two distinct entries that are equal under
case-insensitive trimmed comparison (the union step dedups by exact
string only); and one `replace` call yields `["x", "x"]`, an exact
duplicate (the replace path performs no dedup at all). -/
theorem claim1_counterexample :
    (applyResumePatch c1PatchSkills "f0" emptyResume).map (fun d => d.skills)
      = some ["a", "A"] ∧
    jsLower (jsTrim "a") = jsLower (jsTrim "A") ∧ ("a" : String) ≠ "A" ∧
    (applyResumePatch c1PatchReplace "f0" emptyResume).map (fun d => d.skills)
      = some ["x", "x"] :=
  ⟨by decide, by decide, by decide, by decide⟩

/-- C1 amended: whenever the patch-operation skill-union step completes,
the skills list contains no two entries equal as exact strings
(deduplication is by exact string, not case-insensitive); the replace
operation installs `completeResume.skills` verbatim, with no
deduplication of any kind. -/
theorem claim1_amended :
    (∀ (r d : Resume) (newSkills : List Json),
      addSkills newSkills r = some d → d.skills.Nodup) ∧
    (∀ (r : Resume) (fresh : String) (ls : List String),
      (applyResumePatch
        { operation := Operation.replace, experience := none, skills := none,
          removeSkills := none, removeExperiences := none, clearSections := none,
          summary := none,
          completeResume := some (Json.obj [("skills", Json.arr (ls.map Json.str))]),
          contact := none } fresh r).map (fun d => d.skills) = some ls) := by
  constructor
  · intro r d newSkills h
    rw [addSkills] at h
    cases hm : jsMapOrThrow jsTrimJ newSkills with
    | none => rw [hm] at h; simp at h
    | some ts =>
      rw [hm] at h
      simp only [Option.map_some', Option.some.injEq] at h
      rw [← h]
      exact nodup_dedupFirst _
  · intro r fresh ls
    simp [applyResumePatch, jsTruthyOpt, jsTruthy, replaceEntireResume,
      replaceFromComplete, jsFieldArr, jsGetField, filterMap_getStr_comp]

/-- Witness for C1's amended theorem: a concrete successful union step
(with a duplicate and a whitespace-only entry) yields a Nodup list. -/
theorem claim1_amended_witness :
    addSkills [Json.str " Go ", Json.str "Go", Json.str "  "] emptyResume
      = some { emptyResume with skills := ["Go"] } ∧
    (({ emptyResume with skills := ["Go"] } : Resume).skills).Nodup :=
  ⟨by decide,
    claim1_amended.1 emptyResume { emptyResume with skills := ["Go"] }
      [Json.str " Go ", Json.str "Go", Json.str "  "] (by decide)⟩

/-! ### Claim C7 -/

/-- The patch `{clearSections: ["skills"], skills: ["A","B"]}`. -/
def c7Patch : NormalizedResumePatch :=
  { operation := Operation.patch, experience := none,
    skills := some [Json.str "A", Json.str "B"],
    removeSkills := none, removeExperiences := none,
    clearSections := some [Json.str "skills"], summary := none,
    completeResume := none, contact := none }

/-- C7: for every starting document, clearing the skills section and
adding `["A","B"]` in the same patch succeeds and yields exactly
`["A","B"]`: the section clear runs before the skill union. -/
theorem claim7_clear_then_add (r : Resume) (fresh : String) :
    (applyResumePatch c7Patch fresh r).map (fun d => d.skills) = some ["A", "B"] := rfl

/-- Witness for C7 at a concrete document with pre-existing skills. -/
theorem claim7_clear_then_add_witness :
    (applyResumePatch c7Patch "id1"
      { emptyResume with skills := ["Old1", "A"] }).map (fun d => d.skills)
      = some ["A", "B"] :=
  claim7_clear_then_add { emptyResume with skills := ["Old1", "A"] } "id1"

/-! ### Claim C10 -/

/-- C10: for a skills array whose elements are strings the union step
succeeds, and membership in the resulting skills list is exactly: an
untouched pre-existing skill, or the trim of an incoming skill that is
non-empty after trimming (whitespace-only incoming entries are
dropped). -/
theorem claim10_addSkills_spec (r : Resume) (newSkills : List String) (s : String)
    (d : Resume) (h : addSkills (newSkills.map Json.str) r = some d) :
    s ∈ d.skills ↔ s ∈ r.skills ∨ ∃ t ∈ newSkills, jsTrim t = s ∧ s ≠ "" := by
  rw [addSkills, jsMapOrThrow_trim_strs] at h
  simp only [Option.map_some', Option.some.injEq] at h
  rw [← h]
  show s ∈ dedupFirst (r.skills ++ (newSkills.map jsTrim).filter (fun x => x ≠ "")) ↔ _
  rw [mem_dedupFirst]
  simp only [List.mem_append, List.mem_filter, List.mem_map, ne_eq,
    decide_eq_true_eq]
  constructor
  · rintro (h | ⟨⟨t, ht, hts⟩, hne⟩)
    · exact Or.inl h
    · exact Or.inr ⟨t, ht, hts, hne⟩
  · rintro (h | ⟨t, ht, hts, hne⟩)
    · exact Or.inl h
    · exact Or.inr ⟨⟨t, ht, hts⟩, hne⟩

/-- Witness for C10 at a concrete union step. -/
theorem claim10_addSkills_spec_witness :
    addSkills ([" Go ", "  "].map Json.str) { emptyResume with skills := ["Rust"] }
      = some { emptyResume with skills := ["Rust", "Go"] } ∧
    ("Go" ∈ ({ emptyResume with skills := ["Rust", "Go"] } : Resume).skills ↔
      "Go" ∈ ({ emptyResume with skills := ["Rust"] } : Resume).skills ∨
      ∃ t ∈ [" Go ", "  "], jsTrim t = "Go" ∧ ("Go" : String) ≠ "") :=
  ⟨by decide,
    claim10_addSkills_spec { emptyResume with skills := ["Rust"] } [" Go ", "  "]
      "Go" { emptyResume with skills := ["Rust", "Go"] } (by decide)⟩

/-! ### Claim C9 -/

/-- C9 counterexample: with no top-level `contact`, the Patch's contact
is pulled from `completeResume.contact` verbatim — `" Bob "` is not
trimmed, contradicting "with the same per-sub-field trimming". -/
theorem claim9_counterexample :
    (normalizeResumeData (Json.obj
      [("completeResume", Json.obj
        [("contact", Json.obj [("fullName", Json.str " Bob ")])])])).contact
      = some { fullName := some (some " Bob "), email := none, phone := none,
               location := none, title := none } ∧
    jsTrim " Bob " ≠ " Bob " := by
  exact ⟨by decide, by decide⟩

/-- C9 amended: a top-level `contact` object is copied with each
sub-field independently trimmed (and takes priority over any nested
contact); when it is absent, the contact nested inside
`completeResume.contact` is pulled verbatim, without trimming. -/
theorem claim9_contact_normalization :
    (∀ s₁ s₂ s₃ s₄ s₅ z : String,
      (normalizeResumeData (Json.obj
        [("contact", Json.obj
          [("fullName", Json.str s₁), ("email", Json.str s₂),
           ("phone", Json.str s₃), ("location", Json.str s₄),
           ("title", Json.str s₅)]),
         ("completeResume", Json.obj
          [("contact", Json.obj [("fullName", Json.str z)])])])).contact
        = some { fullName := some (some (jsTrim s₁)),
                 email := some (some (jsTrim s₂)),
                 phone := some (some (jsTrim s₃)),
                 location := some (some (jsTrim s₄)),
                 title := some (some (jsTrim s₅)) }) ∧
    (∀ z : String,
      (normalizeResumeData (Json.obj
        [("completeResume", Json.obj
          [("contact", Json.obj [("fullName", Json.str z)])])])).contact
        = some { fullName := some (some z), email := none, phone := none,
                 location := none, title := none }) :=
  ⟨fun _ _ _ _ _ _ => rfl, fun _ => rfl⟩

/-! ### Claim C6 -/

/-- A Patch with no actionable fields. -/
def c6EmptyPatch : NormalizedResumePatch :=
  { operation := Operation.patch, experience := none, skills := none,
    removeSkills := none, removeExperiences := none, clearSections := none,
    summary := none, completeResume := none, contact := none }

/-- A Patch whose skills array holds a non-string element (`[1]`), as a
malformed model response can produce — the Normalizer passes it through
verbatim. -/
def c6BadSkillsPatch : NormalizedResumePatch :=
  { operation := Operation.patch, experience := none,
    skills := some [Json.num "1"],
    removeSkills := none, removeExperiences := none, clearSections := none,
    summary := none, completeResume := none, contact := none }

/-- A `replace` whose payload holds an experiences entry without a
company — stored verbatim by the replace branch. -/
def c6ReplacePoison : NormalizedResumePatch :=
  { operation := Operation.replace, experience := none, skills := none,
    removeSkills := none, removeExperiences := none, clearSections := none,
    summary := none,
    completeResume := some (Json.obj
      [("experiences", Json.arr [Json.obj [("title", Json.str "T")]])]),
    contact := none }

/-- The document produced by `c6ReplacePoison`: its single entry has no
company field at all. -/
def c6PoisonedDoc : Resume :=
  { emptyResume with experiences :=
      [{ id := "", company := none, title := some "T", duration := none,
         description := [] }] }

/-- A well-typed removal patch. -/
def c6RemovePatch : NormalizedResumePatch :=
  { operation := Operation.patch, experience := none, skills := none,
    removeSkills := none, removeExperiences := some [Json.str "X"],
    clearSections := none, summary := none, completeResume := none,
    contact := none }

/-- C6 counterexample: the Applicator is NOT total.  A patch whose
skills array holds the number `1` makes `addSkills` call `(1).trim()`
and throw (`none`) out of `applyResumePatch`; and after a `replace`
installs a raw entry without a company, a well-typed removal patch
throws at the unguarded `e.company.trim()`. -/
theorem claim6_counterexample :
    applyResumePatch c6BadSkillsPatch "f0" emptyResume = none ∧
    applyResumePatch c6ReplacePoison "f0" emptyResume = some c6PoisonedDoc ∧
    applyResumePatch c6RemovePatch "f1" c6PoisonedDoc = none :=
  ⟨by decide, by decide, by decide⟩

/-- C6 amended: on the well-typed fragment the Applicator behaves as
claimed — an empty Patch leaves the document unchanged, and a field it
cannot act on (an experience without a company) is a no-op for that
field only while the rest of the Patch is still applied.  (Totality
holds only there: see `claim6_counterexample` for the throwing
inputs.) -/
theorem claim6_welltyped_noop :
    (∀ (r : Resume) (fresh : String), applyResumePatch c6EmptyPatch fresh r = some r) ∧
    (∀ (p : NormalizedResumePatch) (fresh : String) (r : Resume) (e : PatchExperience),
      p.experience = some e → e.company.getD "" = "" →
      applyResumePatch p fresh r =
        applyResumePatch { p with experience := none } fresh r) := by
  constructor
  · intro r fresh
    rfl
  · intro p fresh r e h1 h2
    by_cases hop : p.operation = Operation.reset
    · simp [applyResumePatch, hop]
    · by_cases hrep : p.operation = Operation.replace ∧ jsTruthyOpt p.completeResume
      · simp [applyResumePatch, hop, hrep]
      · simp [applyResumePatch, hop, hrep, applyExperienceStep, h1, h2]

/-- Witness for C6's amended theorem: a patch whose experience has an
empty company is a no-op for the experience field while its skills are
still added. -/
theorem claim6_welltyped_noop_witness :
    ({ operation := Operation.patch,
       experience := some { id := none, company := some "", title := none,
                            duration := none, description := none },
       skills := some [Json.str "S"], removeSkills := none,
       removeExperiences := none, clearSections := none, summary := none,
       completeResume := none, contact := none } : NormalizedResumePatch).experience
      = some { id := none, company := some "", title := none,
               duration := none, description := none } ∧
    (({ id := none, company := some "", title := none, duration := none,
        description := none } : PatchExperience).company.getD "" = "") ∧
    applyResumePatch
      { operation := Operation.patch,
        experience := some { id := none, company := some "", title := none,
                             duration := none, description := none },
        skills := some [Json.str "S"], removeSkills := none,
        removeExperiences := none, clearSections := none, summary := none,
        completeResume := none, contact := none } "f" emptyResume =
    applyResumePatch
      { operation := Operation.patch, experience := none,
        skills := some [Json.str "S"], removeSkills := none,
        removeExperiences := none, clearSections := none, summary := none,
        completeResume := none, contact := none } "f" emptyResume :=
  ⟨rfl, rfl,
    claim6_welltyped_noop.2
      { operation := Operation.patch,
        experience := some { id := none, company := some "", title := none,
                             duration := none, description := none },
        skills := some [Json.str "S"], removeSkills := none,
        removeExperiences := none, clearSections := none, summary := none,
        completeResume := none, contact := none } "f" emptyResume
      { id := none, company := some "", title := none, duration := none,
        description := none } rfl rfl⟩

/-! ### Claim C2 -/

/-- The spec's merge-scenario document. -/
def c2Doc : Resume :=
  { emptyResume with experiences :=
      [{ id := "1", company := some "Acme", title := some "Eng",
         duration := some "", description := ["Shipped X"] }] }

/-- The spec's merge-scenario patch
`{operation:"patch", experience:{company:"Acme", description:["Shipped Y"]}}`. -/
def c2Patch : NormalizedResumePatch :=
  { operation := Operation.patch,
    experience := some { id := none, company := some "Acme", title := none,
                         duration := none, description := some ["Shipped Y"] },
    skills := none, removeSkills := none, removeExperiences := none,
    clearSections := none, summary := none, completeResume := none,
    contact := none }

/-- C2 counterexample: in the spec's own scenario the description does
become `["Shipped X","Shipped Y"]`, but the title is NOT unchanged — the
merge spread overwrites it with the incoming (empty) title, clearing
`"Eng"` to `""`. -/
theorem claim2_counterexample :
    c2Doc.experiences =
      [{ id := "1", company := some "Acme", title := some "Eng",
         duration := some "", description := ["Shipped X"] }] ∧
    (applyResumePatch c2Patch "f9" c2Doc).map (fun d => d.experiences) =
      some [{ id := "1", company := some "Acme", title := some "",
              duration := some "", description := ["Shipped X", "Shipped Y"] }] ∧
    ("Eng" : String) ≠ "" :=
  ⟨by decide, by decide, by decide⟩

/-- C2 amended: when a patch experience's non-empty company matches the
single existing entry case-insensitively, the merge keeps the stable
`id` and unions the descriptions (existing order, then new lines,
exact-string dedup), but `title` and `duration` are overwritten with the
incoming values unconditionally — an absent or empty incoming value
clears them to `""`. -/
theorem claim2_merge_overrides (r : Resume) (prev : Experience)
    (e : PatchExperience) (fresh : String)
    (hr : r.experiences = [prev])
    (hc : e.company.getD "" ≠ "")
    (hpc : prev.company.getD "" ≠ "")
    (hci : jsLower (jsTrim (prev.company.getD "")) = jsLower (jsTrim (e.company.getD "")))
    (hid : prev.id ≠ "") :
    applyResumePatch
      { operation := Operation.patch, experience := some e, skills := none,
        removeSkills := none, removeExperiences := none, clearSections := none,
        summary := none, completeResume := none, contact := none } fresh r =
    some { r with experiences :=
        [{ id := prev.id, company := e.company,
           title := some (e.title.getD ""), duration := some (e.duration.getD ""),
           description :=
             dedupFirst (prev.description ++ dedupFirst (e.description.getD [])) }] } := by
  have h0 : applyResumePatch
      { operation := Operation.patch, experience := some e, skills := none,
        removeSkills := none, removeExperiences := none, clearSections := none,
        summary := none, completeResume := none, contact := none } fresh r =
      some (applyExperienceStep (some e) fresh r) := rfl
  rw [h0, Option.some.injEq]
  simp only [applyExperienceStep]
  rw [if_pos hc]
  simp only [addOrUpdateExperience, hr]
  have hm : experienceMatches
      { id := if e.id.getD "" = "" then fresh else e.id.getD "",
        company := e.company, title := some (e.title.getD ""),
        duration := some (e.duration.getD ""),
        description := dedupFirst (e.description.getD []) } prev = true := by
    simp [experienceMatches, hpc, hc, hci]
  simp only [upsertExperience, hm, if_true, mergeExperience, hid]
  simp [hid]

/-- Witness for C2 at the spec's scenario inputs (title `"Eng"` is
overwritten by the empty incoming title). -/
theorem claim2_merge_overrides_witness :
    applyResumePatch c2Patch "f9" c2Doc =
    some { c2Doc with experiences :=
        [{ id := "1", company := some "Acme", title := some "",
           duration := some "",
           description := dedupFirst (["Shipped X"] ++ dedupFirst ["Shipped Y"]) }] } :=
  claim2_merge_overrides c2Doc
    { id := "1", company := some "Acme", title := some "Eng",
      duration := some "", description := ["Shipped X"] }
    { id := none, company := some "Acme", title := none, duration := none,
      description := some ["Shipped Y"] } "f9"
    (by decide) (by decide) (by decide) (by decide) (by decide)

/-! ### Claim C3 -/

/-- A document whose first entry matches the incoming patch by company
and whose second entry matches it by exact id. -/
def c3Doc : Resume :=
  { emptyResume with experiences :=
      [{ id := "x", company := some "Acme", title := some "T0",
         duration := some "", description := [] },
       { id := "7", company := some "Beta", title := some "T1",
         duration := some "", description := [] }] }

/-- An incoming experience with `id = "7"` (exact match on the second
entry) and company `"acme"` (case-insensitive match on the first). -/
def c3Patch : NormalizedResumePatch :=
  { operation := Operation.patch,
    experience := some { id := some "7", company := some "acme", title := none,
                         duration := none, description := some ["D"] },
    skills := none, removeSkills := none, removeExperiences := none,
    clearSections := none, summary := none, completeResume := none,
    contact := none }

/-- C3 counterexample: the upsert merges into the FIRST entry satisfying
the combined (id-or-company) predicate — here the company match at
index 0 — while the entry whose `id` exactly equals the incoming id is
left untouched, contradicting "the id match is the one merged into". -/
theorem claim3_counterexample :
    (applyResumePatch c3Patch "f3" c3Doc).map (fun d => d.experiences) =
      some [{ id := "x", company := some "acme", title := some "",
              duration := some "", description := ["D"] },
            { id := "7", company := some "Beta", title := some "T1",
              duration := some "", description := [] }] ∧
    c3Doc.experiences =
      [{ id := "x", company := some "Acme", title := some "T0",
         duration := some "", description := [] },
       { id := "7", company := some "Beta", title := some "T1",
         duration := some "", description := [] }] :=
  ⟨by decide, by decide⟩

/-- C3 amended: the upsert scans the entries in order and merges into
the first entry satisfying the single combined predicate (exact id
match OR case-insensitive trimmed company match); exact id matching has
no priority across entries, so an earlier company match wins over a
later exact id match, which stays untouched. -/
theorem claim3_first_combined_match_wins (r : Resume) (a b : Experience)
    (e : PatchExperience) (fresh : String)
    (hr : r.experiences = [a, b])
    (hc : e.company.getD "" ≠ "")
    (hac : a.company.getD "" ≠ "")
    (hci : jsLower (jsTrim (a.company.getD "")) = jsLower (jsTrim (e.company.getD "")))
    (hidne : e.id.getD "" ≠ "")
    (_hbid : b.id = e.id.getD "")
    (_haid : a.id ≠ e.id.getD "") :
    applyResumePatch
      { operation := Operation.patch, experience := some e, skills := none,
        removeSkills := none, removeExperiences := none, clearSections := none,
        summary := none, completeResume := none, contact := none } fresh r =
    some { r with experiences :=
        [mergeExperience a
          { id := e.id.getD "", company := e.company,
            title := some (e.title.getD ""), duration := some (e.duration.getD ""),
            description := dedupFirst (e.description.getD []) }, b] } := by
  have h0 : applyResumePatch
      { operation := Operation.patch, experience := some e, skills := none,
        removeSkills := none, removeExperiences := none, clearSections := none,
        summary := none, completeResume := none, contact := none } fresh r =
      some (applyExperienceStep (some e) fresh r) := rfl
  rw [h0, Option.some.injEq]
  simp only [applyExperienceStep]
  rw [if_pos hc]
  simp only [addOrUpdateExperience, hr]
  rw [if_neg (by simp [hidne] : ¬ e.id.getD "" = "")]
  have hm : experienceMatches
      { id := e.id.getD "", company := e.company,
        title := some (e.title.getD ""), duration := some (e.duration.getD ""),
        description := dedupFirst (e.description.getD []) } a = true := by
    simp [experienceMatches, hac, hc, hci]
  simp only [upsertExperience, hm, if_true]

/-- Witness for C3 at the concrete two-entry document. -/
theorem claim3_first_combined_match_wins_witness :
    applyResumePatch c3Patch "f3" c3Doc =
    some { c3Doc with experiences :=
        [mergeExperience
          { id := "x", company := some "Acme", title := some "T0",
            duration := some "", description := [] }
          { id := "7", company := some "acme", title := some "",
            duration := some "", description := dedupFirst ["D"] },
         { id := "7", company := some "Beta", title := some "T1",
           duration := some "", description := [] }] } :=
  claim3_first_combined_match_wins c3Doc
    { id := "x", company := some "Acme", title := some "T0",
      duration := some "", description := [] }
    { id := "7", company := some "Beta", title := some "T1",
      duration := some "", description := [] }
    { id := some "7", company := some "acme", title := none, duration := none,
      description := some ["D"] } "f3"
    (by decide) (by decide) (by decide) (by decide) (by decide) (by decide)
    (by decide)

/-! ### Claim C4 -/

/-- A response with an unparseable tagged block followed by a perfectly
parseable fenced block. -/
def c4Text : String :=
  "[RESUME_DATA]nope[/RESUME_DATA] ```json \x7b\"summary\": \"ok\"\x7d```"

/-- C4 counterexample: the tagged-pair candidate `nope` fails parsing,
and the Extractor returns a final failure right there — it does NOT
proceed to the fenced strategy, whose candidate would have parsed to a
truthy object. -/
theorem claim4_counterexample :
    extractJsonBlock c4Text =
      { data := none, error := some "Tagged JSON not parseable" } ∧
    (fenceMatch c4Text.toList).map
      (fun l => jsTruthyOpt (safeJsonParse (jsTrim (String.mk l)))) = some true :=
  ⟨rfl, rfl⟩

/-- C4 amended: a found-but-unparseable candidate is final for the
tagged-pair, tagged-unterminated and fenced strategies — each returns
its failure immediately instead of trying the next strategy; only the
bare-brace fallback falls through to the no-block failure. -/
theorem claim4_parse_failure_is_final (text : String) :
    (∀ i j, findCI text.toList openTagL 0 = some i →
      findCI text.toList closeTagL (i + 13) = some j →
      jsTruthyOpt (safeJsonParse (jsTrim (String.mk (sliceL text.toList (i + 13) j)))) = false →
      extractJsonBlock text =
        { data := safeJsonParse (jsTrim (String.mk (sliceL text.toList (i + 13) j))),
          error := some "Tagged JSON not parseable" }) ∧
    (∀ i cand, findCI text.toList openTagL 0 = some i →
      findCI text.toList closeTagL (i + 13) = none →
      recoverAfterOpen (text.toList.drop (i + 13)) = some cand →
      jsTruthyOpt (safeJsonParse (String.mk cand)) = false →
      extractJsonBlock text = { data := none, error := some "Opening tag without JSON" }) ∧
    (∀ content, findCI text.toList openTagL 0 = none →
      fenceMatch text.toList = some content →
      jsTruthyOpt (safeJsonParse (jsTrim (String.mk content))) = false →
      extractJsonBlock text =
        { data := safeJsonParse (jsTrim (String.mk content)),
          error := some "Fenced JSON not parseable" }) := by
  refine ⟨?_, ?_, ?_⟩
  · intro i j h1 h2 h3
    simp only [extractJsonBlock, h1, h2, h3]
    simp
  · intro i cand h1 h2 h3 h4
    simp only [extractJsonBlock, h1, h2, h3, h4]
    simp
  · intro content h1 h2 h3
    simp only [extractJsonBlock, h1, h2, h3]
    simp

/-- Witness for C4's amended theorem at `c4Text` (tagged-pair case). -/
theorem claim4_parse_failure_is_final_witness :
    findCI c4Text.toList openTagL 0 = some 0 ∧
    findCI c4Text.toList closeTagL (0 + 13) = some 17 ∧
    jsTruthyOpt (safeJsonParse (jsTrim (String.mk (sliceL c4Text.toList (0 + 13) 17)))) = false ∧
    extractJsonBlock c4Text =
      { data := safeJsonParse (jsTrim (String.mk (sliceL c4Text.toList (0 + 13) 17))),
        error := some "Tagged JSON not parseable" } :=
  ⟨rfl, rfl, rfl, (claim4_parse_failure_is_final c4Text).1 0 17 rfl rfl rfl⟩

/-! ### Claim C8 -/

/-- A response with an unparseable fenced block and a parseable bare
object after it. -/
def c8Text : String := "see ```oops``` then \x7b\"k\": 1\x7d end"

/-- C8 counterexample: the fenced candidate `oops` fails parsing and the
Extractor finalizes the failure there, although the bare first-to-last
brace fallback would have succeeded — so "first success wins" over the
strategy list does not hold on the code. -/
theorem claim8_counterexample :
    extractJsonBlock c8Text =
      { data := none, error := some "Fenced JSON not parseable" } ∧
    idxOfChar c8Text.toList '{' = some 20 ∧
    lastIdxOfChar c8Text.toList '}' = some 27 ∧
    jsTruthyOpt (safeJsonParse (String.mk (sliceL c8Text.toList 20 28))) = true :=
  ⟨rfl, rfl, rfl, rfl⟩

/-- C8 amended: strategies are attempted in the fixed order (tagged
pair, unterminated-tag recovery, fenced block, bare braces) and the
first strategy whose candidate is FOUND determines the outcome; in
particular a successful tagged block always wins over a fenced block. -/
theorem claim8_strategy_order (text : String) :
    (∀ i j, findCI text.toList openTagL 0 = some i →
      findCI text.toList closeTagL (i + 13) = some j →
      jsTruthyOpt (safeJsonParse (jsTrim (String.mk (sliceL text.toList (i + 13) j)))) = true →
      extractJsonBlock text =
        { data := safeJsonParse (jsTrim (String.mk (sliceL text.toList (i + 13) j))),
          error := none }) ∧
    (∀ i cand, findCI text.toList openTagL 0 = some i →
      findCI text.toList closeTagL (i + 13) = none →
      recoverAfterOpen (text.toList.drop (i + 13)) = some cand →
      jsTruthyOpt (safeJsonParse (String.mk cand)) = true →
      extractJsonBlock text =
        { data := safeJsonParse (String.mk cand),
          error := some "Missing closing tag, recovered JSON" }) ∧
    (∀ content, findCI text.toList openTagL 0 = none →
      fenceMatch text.toList = some content →
      jsTruthyOpt (safeJsonParse (jsTrim (String.mk content))) = true →
      extractJsonBlock text =
        { data := safeJsonParse (jsTrim (String.mk content)), error := none }) ∧
    (∀ a b, findCI text.toList openTagL 0 = none →
      fenceMatch text.toList = none →
      idxOfChar text.toList '{' = some a →
      lastIdxOfChar text.toList '}' = some b →
      a < b →
      jsTruthyOpt (safeJsonParse (String.mk (sliceL text.toList a (b + 1)))) = true →
      extractJsonBlock text =
        { data := safeJsonParse (String.mk (sliceL text.toList a (b + 1))),
          error := some "Used untagged JSON fallback" }) := by
  refine ⟨?_, ?_, ?_, ?_⟩
  · intro i j h1 h2 h3
    simp only [extractJsonBlock, h1, h2, h3]
    simp
  · intro i cand h1 h2 h3 h4
    simp only [extractJsonBlock, h1, h2, h3, h4]
    simp
  · intro content h1 h2 h3
    simp only [extractJsonBlock, h1, h2, h3]
    simp
  · intro a b h1 h2 h3 h4 h5 h6
    simp only [extractJsonBlock, h1, h2, h3, h4, if_pos h5, h6]
    simp

/-- A response holding both a well-formed tagged block and a separate
fenced block. -/
def c8BothText : String :=
  "hi [RESUME_DATA]\x7b\"a\": 1\x7d[/RESUME_DATA] ```json \x7b\"b\": 2\x7d```"

/-- Witness for C8's amended theorem: with both a tagged and a fenced
block present, the tagged block resolves the result with no warning. -/
theorem claim8_strategy_order_witness :
    findCI c8BothText.toList openTagL 0 = some 3 ∧
    findCI c8BothText.toList closeTagL (3 + 13) = some 24 ∧
    jsTruthyOpt (safeJsonParse (jsTrim (String.mk (sliceL c8BothText.toList (3 + 13) 24)))) = true ∧
    (fenceMatch c8BothText.toList).isSome = true ∧
    extractJsonBlock c8BothText =
      { data := safeJsonParse (jsTrim (String.mk (sliceL c8BothText.toList (3 + 13) 24))),
        error := none } :=
  ⟨rfl, rfl, rfl, rfl, (claim8_strategy_order c8BothText).1 3 24 rfl rfl rfl⟩

/-! ### Claim C5 -/

/-- A Patch using only experience/skills additions. -/
def c5Patch (pe : Option PatchExperience) (sk : Option (List Json)) : NormalizedResumePatch :=
  { operation := Operation.patch, experience := pe, skills := sk,
    removeSkills := none, removeExperiences := none, clearSections := none,
    summary := none, completeResume := none, contact := none }

/-- The `Experience` value `applyResumePatch` hands to
`addOrUpdateExperience`. -/
def patchIncoming (e : PatchExperience) : Experience :=
  { id := e.id.getD "", company := e.company,
    title := some (e.title.getD ""), duration := some (e.duration.getD ""),
    description := e.description.getD [] }

/-- The deduplicated incoming entry built inside `addOrUpdateExperience`
(`incoming.id || makeId()` and `Array.from(new Set(description))`). -/
def mkExp (inc : Experience) (fresh : String) : Experience :=
  { inc with
    id := if inc.id = "" then fresh else inc.id,
    description := dedupFirst inc.description }

/-- The experiences-list effect of the C5 patch's experience step. -/
def expList (pe : Option PatchExperience) (fresh : String)
    (es : List Experience) : List Experience :=
  match pe with
  | none => es
  | some e =>
    if e.company.getD "" ≠ "" then upsertExperience (mkExp (patchIncoming e) fresh) es
    else es

/-- The skills-list effect of the C5 patch's skill-union step (`none`
when the union step would throw). -/
def skillsListJ (sk : Option (List Json)) (s : List String) : Option (List String) :=
  match sk with
  | none => some s
  | some l =>
    if l.length ≠ 0 then
      (jsMapOrThrow jsTrimJ l).map
        (fun ts => dedupFirst (s ++ ts.filter (fun x => x ≠ "")))
    else some s

theorem experienceMatches_eq_true_iff (exp e : Experience) :
    experienceMatches exp e = true ↔
      (exp.id ≠ "" ∧ e.id ≠ "" ∧ e.id = exp.id) ∨
      (e.company.getD "" ≠ "" ∧ exp.company.getD "" ≠ "" ∧
        jsLower (jsTrim (e.company.getD "")) = jsLower (jsTrim (exp.company.getD ""))) := by
  simp [experienceMatches]
  tauto

/-- A merged entry absorbs a re-merge of the same incoming value. -/
theorem merge_absorb (p inc : Experience) (f : String)
    (hpid : p.id ≠ "") (hpc : p.company = inc.company)
    (hpt : p.title = inc.title) (hpd : p.duration = inc.duration)
    (hdesc : ∀ x ∈ dedupFirst inc.description, x ∈ p.description)
    (hnd : dedupFirst p.description = p.description) :
    mergeExperience p (mkExp inc f) = p := by
  simp only [mergeExperience, mkExp]
  refine Experience.ext ?_ ?_ ?_ ?_ ?_
  · simp [hpid]
  · exact hpc.symm
  · exact hpt.symm
  · exact hpd.symm
  · show dedupFirst (p.description ++ dedupFirst inc.description) = p.description
    rw [dedupFirst_append_of_subset _ _ hdesc, hnd]

/-- Re-applying the same upsert is the identity, provided the first
fresh id is non-empty and the second does not collide with any existing
entry id. -/
theorem upsert_idem (inc : Experience) (f₁ f₂ : String)
    (hc : inc.company.getD "" ≠ "") (hf₁ : f₁ ≠ "") :
    ∀ (l : List Experience), (∀ e ∈ l, e.id ≠ f₂) →
      upsertExperience (mkExp inc f₂) (upsertExperience (mkExp inc f₁) l) =
        upsertExperience (mkExp inc f₁) l := by
  have hid₁ : (mkExp inc f₁).id ≠ "" := by
    simp only [mkExp]
    by_cases h : inc.id = "" <;> simp [h, hf₁]
  intro l
  induction l with
  | nil =>
    intro _
    simp only [upsertExperience]
    have hmatch : experienceMatches (mkExp inc f₂) (mkExp inc f₁) = true := by
      rw [experienceMatches_eq_true_iff]
      exact Or.inr ⟨hc, hc, rfl⟩
    rw [if_pos hmatch]
    rw [merge_absorb (mkExp inc f₁) inc f₂ hid₁ rfl rfl rfl
      (fun x hx => hx) (dedupFirst_idem _)]
  | cons e es ih =>
    intro h
    have hes : ∀ x ∈ es, x.id ≠ f₂ := fun x hx => h x (List.mem_cons_of_mem _ hx)
    have heid : e.id ≠ f₂ := h e (List.mem_cons_self _ _)
    by_cases hm : experienceMatches (mkExp inc f₁) e = true
    · -- first application merged into `e`
      have step1 : upsertExperience (mkExp inc f₁) (e :: es) =
          mergeExperience e (mkExp inc f₁) :: es := by
        simp only [upsertExperience]
        rw [if_pos hm]
      rw [step1]
      have hmerge_id : (mergeExperience e (mkExp inc f₁)).id ≠ "" := by
        simp only [mergeExperience]
        by_cases hei : e.id = "" <;> simp [hei, hid₁]
      have hmatch2 : experienceMatches (mkExp inc f₂) (mergeExperience e (mkExp inc f₁)) = true := by
        rw [experienceMatches_eq_true_iff]
        exact Or.inr ⟨hc, hc, rfl⟩
      have step2 : upsertExperience (mkExp inc f₂) (mergeExperience e (mkExp inc f₁) :: es) =
          mergeExperience (mergeExperience e (mkExp inc f₁)) (mkExp inc f₂) :: es := by
        simp only [upsertExperience]
        rw [if_pos hmatch2]
      rw [step2]
      rw [merge_absorb (mergeExperience e (mkExp inc f₁)) inc f₂ hmerge_id rfl rfl rfl
        (fun x hx =>
          (mem_dedupFirst x _).mpr (List.mem_append.mpr (Or.inr hx)))
        (dedupFirst_idem _)]
    · -- first application left `e` alone
      have hm2 : ¬ experienceMatches (mkExp inc f₂) e = true := by
        rw [experienceMatches_eq_true_iff] at hm ⊢
        push_neg at hm
        rintro (⟨h1, h2, h3⟩ | ⟨g1, g2, g3⟩)
        · by_cases hincid : inc.id = ""
          · apply heid
            rw [h3]
            simp [mkExp, hincid]
          · have hids : (mkExp inc f₂).id = (mkExp inc f₁).id := by
              simp [mkExp, hincid]
            exact hm.1 hid₁ h2 (h3.trans hids)
        · exact hm.2 g1 g2 g3
      have step1 : upsertExperience (mkExp inc f₁) (e :: es) =
          e :: upsertExperience (mkExp inc f₁) es := by
        simp only [upsertExperience]
        rw [if_neg hm]
      have step2 : upsertExperience (mkExp inc f₂) (e :: upsertExperience (mkExp inc f₁) es) =
          e :: upsertExperience (mkExp inc f₂) (upsertExperience (mkExp inc f₁) es) := by
        simp only [upsertExperience]
        rw [if_neg hm2]
      rw [step1, step2, ih hes]

/-- The experience step only rewrites the experiences field, by
`expList`. -/
theorem applyExperienceStep_eq (pe : Option PatchExperience) (f : String) (r : Resume) :
    applyExperienceStep pe f r = { r with experiences := expList pe f r.experiences } := by
  cases pe with
  | none => rfl
  | some e =>
    simp only [applyExperienceStep, expList]
    by_cases hce : e.company.getD "" ≠ ""
    · rw [if_pos hce, if_pos hce]
      rfl
    · rw [if_neg hce, if_neg hce]

/-- Applying a C5 patch only rewrites the experiences and skills fields,
by the corresponding list functions (failing exactly when the skill
union throws). -/
theorem apply_c5_canonical (pe : Option PatchExperience) (sk : Option (List Json))
    (f : String) (r : Resume) :
    applyResumePatch (c5Patch pe sk) f r =
      (skillsListJ sk r.skills).map
        (fun s2 => { r with experiences := expList pe f r.experiences, skills := s2 }) := by
  have h0 : applyResumePatch (c5Patch pe sk) f r =
      (applySkillsStep sk (applyExperienceStep pe f r)).bind (fun r4 => some r4) := rfl
  rw [h0, applyExperienceStep_eq]
  cases sk with
  | none => rfl
  | some l =>
    simp only [applySkillsStep, skillsListJ]
    by_cases hl : l.length ≠ 0
    · rw [if_pos hl, if_pos hl]
      simp only [addSkills]
      cases hjm : jsMapOrThrow jsTrimJ l with
      | none => rfl
      | some ts => rfl
    · rw [if_neg hl, if_neg hl]
      rfl

/-- A successful skill-union result is a fixed point of the same
union. -/
theorem skillsListJ_idem_of_some (sk : Option (List Json)) (s s2 : List String)
    (h : skillsListJ sk s = some s2) : skillsListJ sk s2 = some s2 := by
  cases sk with
  | none =>
    simp only [skillsListJ, Option.some.injEq] at h
    rw [← h]
    rfl
  | some l =>
    simp only [skillsListJ] at h ⊢
    by_cases hl : l.length ≠ 0
    · rw [if_pos hl] at h ⊢
      cases hjm : jsMapOrThrow jsTrimJ l with
      | none => rw [hjm] at h; simp at h
      | some ts =>
        rw [hjm] at h
        simp only [Option.map_some', Option.some.injEq] at h ⊢
        rw [← h]
        rw [dedupFirst_append_of_subset _ _
          (fun x hx => (mem_dedupFirst x _).mpr (List.mem_append.mpr (Or.inr hx))),
          dedupFirst_idem]
    · rw [if_neg hl] at h ⊢

theorem expList_idem (pe : Option PatchExperience) (f₁ f₂ : String)
    (es : List Experience) (hf₁ : f₁ ≠ "") (hfresh : ∀ e ∈ es, e.id ≠ f₂) :
    expList pe f₂ (expList pe f₁ es) = expList pe f₁ es := by
  cases pe with
  | none => rfl
  | some e =>
    simp only [expList]
    by_cases hce : e.company.getD "" ≠ ""
    · rw [if_pos hce, if_pos hce]
      exact upsert_idem (patchIncoming e) f₁ f₂ hce hf₁ es hfresh
    · rw [if_neg hce, if_neg hce]

/-- C5: a Patch using only experience/skills additions is idempotent —
whenever one application succeeds, re-applying the same Patch (with a
fresh generated id that is non-empty and does not collide with existing
entry ids) succeeds and changes nothing. -/
theorem claim5_additive_idempotent (pe : Option PatchExperience)
    (sk : Option (List Json)) (r d : Resume) (f₁ f₂ : String)
    (hf₁ : f₁ ≠ "") (hfresh : ∀ e ∈ r.experiences, e.id ≠ f₂)
    (h : applyResumePatch (c5Patch pe sk) f₁ r = some d) :
    applyResumePatch (c5Patch pe sk) f₂ d = some d := by
  rw [apply_c5_canonical] at h
  cases hsk : skillsListJ sk r.skills with
  | none => rw [hsk] at h; simp at h
  | some s1 =>
    rw [hsk] at h
    simp only [Option.map_some', Option.some.injEq] at h
    rw [apply_c5_canonical]
    have hdskills : d.skills = s1 := by rw [← h]
    have hdexp : d.experiences = expList pe f₁ r.experiences := by rw [← h]
    rw [hdskills, hdexp, skillsListJ_idem_of_some sk r.skills s1 hsk,
      expList_idem pe f₁ f₂ r.experiences hf₁ hfresh]
    simp only [Option.map_some', Option.some.injEq]
    rw [← h]

/-- C5 witness data: an additive patch, a pre-populated document and the
document one application produces. -/
def c5WExp : PatchExperience :=
  { id := none, company := some "Acme", title := some "Dev", duration := none,
    description := some ["a", "b"] }

def c5WSk : List Json := [Json.str " Go ", Json.str "Rust"]

def c5WDoc : Resume :=
  { emptyResume with
    experiences := [{ id := "1", company := some "Acme", title := some "Eng",
                      duration := some "", description := ["Shipped X"] }],
    skills := ["Go"] }

def c5WResult : Resume :=
  { emptyResume with
    experiences := [{ id := "1", company := some "Acme", title := some "Dev",
                      duration := some "", description := ["Shipped X", "a", "b"] }],
    skills := ["Go", "Rust"] }

/-- Witness for C5: the concrete additive patch applied twice to a
non-empty document. -/
theorem claim5_additive_idempotent_witness :
    ("g1" : String) ≠ "" ∧
    (∀ e ∈ c5WDoc.experiences, e.id ≠ "g2") ∧
    applyResumePatch (c5Patch (some c5WExp) (some c5WSk)) "g1" c5WDoc = some c5WResult ∧
    applyResumePatch (c5Patch (some c5WExp) (some c5WSk)) "g2" c5WResult = some c5WResult :=
  ⟨by decide, by decide, by decide,
    claim5_additive_idempotent (some c5WExp) (some c5WSk) c5WDoc c5WResult
      "g1" "g2" (by decide) (by decide) (by decide)⟩

end ResumeLab
